import Mathlib

/-!
Verification of the browsermcp bridge core against its source.

The definitions below are shallow embeddings of the JavaScript source:

* `startCall`, `wsStep`, `runEvents` — `sendSocketMessage` /
  `addSocketMessageResponseListener` from `src/ws/sender.js`: one pending
  call's promise, its event listeners (message / error / close), its timer,
  and the `cleanup` function, driven by an explicit event trace.
* `dispatchMessage` — delivery of one inbound socket message to every
  pending call's response listener.
* `Context` / `contextSend` — the WebSocket-backed `Context` class
  (`context.js`): the throwing `ws` getter, `hasWs`, and the
  readyState check performed by `sendSocketMessage` before writing.
* `SM` — the `ServerStateMachine` (`transition`, `handleError`, and the
  `run` loop's per-state actions, with external operation outcomes made
  explicit).
* `buildToolMap` / `executeToolCall` — the `McpHandler` constructor's
  alias-installing tool map and `executeToolCall` (proxy `mcp-handler`).
* `validateToolRequest` / `handleToolRequest` / `handleHealthCheck` — the
  proxy HTTP front door (`http-server`), over a small model of JavaScript
  value truthiness and `typeof`.
* `portWaitLoop` — the bounded port-availability polling loop of
  `createWebSocketServer` (`src/ws/index.js`).
-/

namespace BrowserMcp

/-! ## Wire envelope and the message correlator (src/ws/sender.js) -/

/-- Constant `MESSAGE_RESPONSE_TYPE` from `src/ws/types.js`. -/
def MESSAGE_RESPONSE_TYPE : String := "messageResponse"

/-- An inbound socket envelope as seen by the response listener:
`{type, payload: {requestId, result, error}}`.  `result` and `error` are
optional fields of the payload. -/
structure Envelope where
  type : String
  requestId : String
  result : Option String
  error : Option String
deriving DecidableEq, Repr

/-- JavaScript truthiness of the optional `error` field: absent and the
empty string are falsy, every other string is truthy (`if (error)`). -/
def errTruthy : Option String → Bool
  | none => false
  | some s => s ≠ ""

/-- How a pending promise was settled. -/
inductive Settled where
  | resolved (r : Option String)
  | rejected (e : String)
deriving DecidableEq, Repr

/-- The observable state of one `sendSocketMessage` call after its
synchronous setup: which listeners are still attached, whether the timer
is still armed, how the promise was settled (first settlement wins), and
counters for `cleanup` invocations and `resolve`/`reject` invocations. -/
structure CallState where
  id : String
  timeoutMs : Nat
  msgAttached : Bool
  errAttached : Bool
  closeAttached : Bool
  timerActive : Bool
  settled : Option Settled
  cleanupRuns : Nat
  settleCount : Nat
deriving DecidableEq, Repr

/-- The `cleanup` closure: removes the response listener, removes the
`error` and `close` listeners, and clears the timeout. -/
def CallState.cleanup (s : CallState) : CallState :=
  { s with msgAttached := false, errAttached := false, closeAttached := false,
           timerActive := false, cleanupRuns := s.cleanupRuns + 1 }

/-- One invocation of `resolve` or `reject`: a promise keeps its first
settlement. -/
def CallState.settle (s : CallState) (v : Settled) : CallState :=
  { s with settled := (match s.settled with | none => some v | some w => some w),
           settleCount := s.settleCount + 1 }

/-- The error message `sendSocketMessage` rejects with on timeout. -/
def timeoutMessage (timeoutMs : Nat) : String :=
  "WebSocket response timeout after " ++ toString timeoutMs ++ "ms"

/-- The message the `errorHandler` rejects with. -/
def wsErrorMessage : String := "WebSocket error occurred"

/-- The message rejected when the socket is not open at send time. -/
def notOpenMessage : String := "WebSocket is not open"

/-- Events the event loop can deliver to one pending call. -/
inductive WsEvent where
  | message (m : Envelope)
  | timerFire
  | socketError
  | socketClose
deriving DecidableEq, Repr

/-- One event delivered to one pending call, exactly as the handlers set
up by `sendSocketMessage` process it.  A handler only runs while its
listener is attached (resp. while the timer is armed):

* inbound message: the listener from `addSocketMessageResponseListener`
  ignores non-`messageResponse` types, ignores payloads whose `requestId`
  differs from this call's id, and otherwise rejects with the error
  message when `error` is truthy, else resolves with `result`, then runs
  `cleanup`;
* timer: runs `cleanup`, then rejects with the timeout message;
* socket `error`: runs `cleanup`, then rejects with the transport error;
* socket `close`: the registered handler is `cleanup` itself — nothing is
  resolved or rejected. -/
def wsStep (s : CallState) : WsEvent → CallState
  | .message m =>
      if s.msgAttached then
        if m.type ≠ MESSAGE_RESPONSE_TYPE then s
        else if m.requestId ≠ s.id then s
        else
          (s.settle (if errTruthy m.error then
                       .rejected (m.error.getD "")
                     else
                       .resolved m.result)).cleanup
      else s
  | .timerFire =>
      if s.timerActive then (s.cleanup).settle (.rejected (timeoutMessage s.timeoutMs))
      else s
  | .socketError =>
      if s.errAttached then (s.cleanup).settle (.rejected wsErrorMessage)
      else s
  | .socketClose =>
      if s.closeAttached then s.cleanup
      else s

/-- Process a whole trace of events against one pending call. -/
def runEvents (s : CallState) (evs : List WsEvent) : CallState :=
  evs.foldl wsStep s

/-- The synchronous body of `sendSocketMessage` once the promise executor
runs, given whether `ws.readyState === WebSocket.OPEN`: arms the timer
(when `timeoutMs` is nonzero — `if (timeoutMs)`), attaches the three
listeners, and then either sends the serialized message (returning the
number of `ws.send` calls) or runs `cleanup` and rejects with
`"WebSocket is not open"`. -/
def startCall (id : String) (timeoutMs : Nat) (readyOpen : Bool) :
    CallState × Nat :=
  let s0 : CallState :=
    { id := id, timeoutMs := timeoutMs,
      msgAttached := true, errAttached := true, closeAttached := true,
      timerActive := timeoutMs ≠ 0,
      settled := none, cleanupRuns := 0, settleCount := 0 }
  if readyOpen then (s0, 1)
  else ((s0.cleanup).settle (.rejected notOpenMessage), 0)

/-- Delivery of one inbound socket message: the socket fires every
attached per-call response listener. -/
def dispatchMessage (m : Envelope) (cs : List CallState) : List CallState :=
  cs.map (fun c => wsStep c (.message m))

/-! ## The WebSocket-backed Context (src/context.js) -/

/-- The user-actionable message thrown by the `ws` getter when no
connection exists. -/
def noConnectionMessage : String :=
  "No connection to browser extension. In order to proceed, you must first connect a tab by clicking the Browser MCP extension icon in the browser toolbar and clicking the 'Connect' button."

/-- Value of `WebSocket.OPEN`. -/
def WS_OPEN : Nat := 1

/-- The piece of a `ws` WebSocket the Context consults. -/
structure WSHandle where
  readyState : Nat
deriving DecidableEq, Repr

/-- The `Context` class: an optional current socket handle (`_ws`). -/
structure Context where
  ws? : Option WSHandle
deriving DecidableEq, Repr

/-- Method `Context.hasWs()`. -/
def Context.hasWs (c : Context) : Bool := c.ws?.isSome

/-- Outcome of `Context.sendSocketMessage`'s synchronous part. -/
inductive SendOutcome where
  | immediateReject (msg : String)
  | started (s : CallState)
deriving DecidableEq, Repr

/-- Method `Context.sendSocketMessage`: the `ws` getter throws the
not-connected message when `_ws` is absent (so no sender is even
created); otherwise `sendSocketMessage` runs and either sends (socket
open) or cleans up and rejects.  The second component counts `ws.send`
invocations. -/
def contextSend (c : Context) (id : String) (timeoutMs : Nat) :
    SendOutcome × Nat :=
  match c.ws? with
  | none => (.immediateReject noConnectionMessage, 0)
  | some h =>
      let r := startCall id timeoutMs (h.readyState = WS_OPEN)
      (.started r.1, r.2)

/-! ## The lifecycle state machine (ServerStateMachine) -/

/-- The fixed state enumeration of `ServerStateMachine`. -/
inductive SMState where
  | INITIALIZING
  | CREATING_SERVER
  | RETRYING_SERVER_CREATION
  | CONNECTING
  | RETRYING_CONNECTION
  | CONNECTED
  | RECONNECTING
  | RESTARTING
  | SHUTTING_DOWN
  | SHUTDOWN
  | FAILED
deriving DecidableEq, Repr

/-- The machine's mutable fields that the claims touch: current state,
retry counter, configured retry budget, and the shutdown flag. -/
structure SM where
  state : SMState
  retryCount : Nat
  maxRetries : Nat
  isShuttingDown : Bool
deriving DecidableEq, Repr

/-- Method `ServerStateMachine.transition`: updates the state and resets the
retry counter when the new state is `CONNECTED` (history and logging are
diagnostics only and are not modelled). -/
def SM.transition (m : SM) (next : SMState) : SM :=
  { m with state := next,
           retryCount := if next = SMState.CONNECTED then 0 else m.retryCount }

/-- Method `ServerStateMachine.handleError`: if a shutdown is in progress the
machine goes straight to `SHUTDOWN`; otherwise the recovery edge depends
on the current state — `CREATING_SERVER` and `CONNECTING` consume one
retry (`RETRYING_SERVER_CREATION` / `RETRYING_CONNECTION`) until the
counter reaches `maxRetries`, after which creation fails permanently
(`FAILED`) but connection escalates to a full rebuild (`RESTARTING`);
an error in `CONNECTED` resets the counter and goes to `RECONNECTING`;
any other state goes to `FAILED`. -/
def SM.handleError (m : SM) : SM :=
  if m.isShuttingDown then m.transition .SHUTDOWN
  else
    match m.state with
    | .CREATING_SERVER =>
        if m.retryCount < m.maxRetries then
          SM.transition { m with retryCount := m.retryCount + 1 } .RETRYING_SERVER_CREATION
        else m.transition .FAILED
    | .CONNECTING =>
        if m.retryCount < m.maxRetries then
          SM.transition { m with retryCount := m.retryCount + 1 } .RETRYING_CONNECTION
        else m.transition .RESTARTING
    | .CONNECTED =>
        SM.transition { m with retryCount := 0 } .RECONNECTING
    | _ => m.transition .FAILED

/-- Outcome of the asynchronous operation a `run`-loop iteration awaits
(server creation in `CREATING_SERVER`, transport connection in
`CONNECTING`); ignored by states that perform no fallible operation. -/
inductive Outcome where
  | ok
  | fail
deriving DecidableEq, Repr

/-- One iteration of the `run` loop's `switch` on the current state.
`CONNECTED` suspends waiting for external events (errors are injected
into it via `handleError`), and the terminal / shutdown states leave the
loop, so those cases leave the machine unchanged. -/
def SM.runStep (m : SM) (o : Outcome) : SM :=
  match m.state with
  | .INITIALIZING => m.transition .CREATING_SERVER
  | .CREATING_SERVER =>
      match o with
      | .ok => m.transition .CONNECTING
      | .fail => m.handleError
  | .RETRYING_SERVER_CREATION => m.transition .CREATING_SERVER
  | .CONNECTING =>
      match o with
      | .ok => m.transition .CONNECTED
      | .fail => m.handleError
  | .RETRYING_CONNECTION => m.transition .CONNECTING
  | .RECONNECTING =>
      SM.transition { m with retryCount := 0 } .CREATING_SERVER
  | .RESTARTING =>
      SM.transition { m with retryCount := 0 } .CREATING_SERVER
  | _ => m

/-- Run the loop over a list of operation outcomes. -/
def SM.runTrace (m : SM) (os : List Outcome) : SM :=
  os.foldl SM.runStep m

/-- A freshly constructed machine (`state = 'INITIALIZING'`,
`retryCount = 0`) with the given `maxRetries`. -/
def SM.init (maxRetries : Nat) : SM :=
  { state := .INITIALIZING, retryCount := 0,
    maxRetries := maxRetries, isShuttingDown := false }

/-- One failed `CREATING_SERVER` attempt together with the
`RETRYING_SERVER_CREATION` wait that follows it when the budget is not
yet exhausted (the second iteration's outcome is irrelevant in the
retry state; on `FAILED` it is a no-op). -/
def SM.failRound (m : SM) : SM :=
  (m.runStep .fail).runStep .ok

/-! ## Tool registration and aliasing (proxy McpHandler) -/

/-- A registered tool: its schema name plus an opaque handler identity —
execution behaviour is external (a single call into the connection
manager), so two lookups resolving to the same `code` execute
identically. -/
structure Tool where
  name : String
  code : Nat
deriving DecidableEq, Repr

/-- The JavaScript `Map` backing `toolMap`, as an association list in
insertion order. -/
abbrev ToolMap := List (String × Tool)

/-- Method `Map.has`. -/
def mapHas (m : ToolMap) (k : String) : Bool :=
  m.any (fun p => p.1 = k)

/-- Method `Map.set`: replaces the first (and, a `Map` holding each key once,
only) binding of the key in place, else appends a new binding. -/
def mapSet : ToolMap → String → Tool → ToolMap
  | [], k, v => [(k, v)]
  | p :: rest, k, v =>
      if p.1 = k then (k, v) :: rest else p :: mapSet rest k v

/-- Method `Map.get`. -/
def mapGet (m : ToolMap) (k : String) : Option Tool :=
  (m.find? (fun p => p.1 = k)).map (fun p => p.2)

/-- Test `name.startsWith('browser_')`, expressed on the character list. -/
def browserPrefixed (s : String) : Bool :=
  "browser_".data.isPrefixOf s.data

/-- Computes `name.replace(/^browser_/, '')` for a name known to carry the
prefix: drops the eight characters `browser_`. -/
def stripBrowser (s : String) : String := String.mk (s.data.drop 8)

/-- The alias spellings the constructor derives from a `browser_`-prefixed
name, in installation order: the stripped name, `mcp_browser<name>`, and
`mcp_browsermcp_<name>`. -/
def aliasesOf (t : Tool) : List String :=
  if browserPrefixed t.name then
    [stripBrowser t.name, "mcp_browser" ++ t.name, "mcp_browsermcp_" ++ t.name]
  else []

/-- One iteration of the constructor's `forEach`: register the tool under
its schema name (unconditionally — an explicit registration overwrites
any alias already squatting there), then install each alias only when the
map does not already hold that key. -/
def registerTool (m : ToolMap) (t : Tool) : ToolMap :=
  let m1 := mapSet m t.name t
  if browserPrefixed t.name then
    let a1 := stripBrowser t.name
    let m2 := if mapHas m1 a1 then m1 else mapSet m1 a1 t
    let a2 := "mcp_browser" ++ t.name
    let m3 := if mapHas m2 a2 then m2 else mapSet m2 a2 t
    let a3 := "mcp_browsermcp_" ++ t.name
    if mapHas m3 a3 then m3 else mapSet m3 a3 t
  else m1

/-- The `toolMap` built by the `McpHandler` constructor. -/
def buildToolMap (tools : List Tool) : ToolMap :=
  tools.foldl registerTool []

/-- Computes `Array.from(map.keys()).join(', ')`. -/
def joinComma : List String → String
  | [] => ""
  | [x] => x
  | x :: y :: xs => x ++ ", " ++ joinComma (y :: xs)

/-- Keys of the tool map in insertion order. -/
def mapKeys (m : ToolMap) : List String := m.map (fun p => p.1)

/-- Result of `executeToolCall`: the meta listing, a structured
tool-not-found failure naming every registered key, or execution of the
resolved tool's handler on the arguments. -/
inductive ExecResult where
  | listed
  | notFound (msg : String)
  | ran (toolCode : Nat) (args : String)
deriving DecidableEq, Repr

/-- The not-found message: `Tool "<name>" not found. Available tools:
<keys joined by comma>`. -/
def toolNotFoundMessage (m : ToolMap) (toolName : String) : String :=
  "Tool \"" ++ toolName ++ "\" not found. Available tools: " ++ joinComma (mapKeys m)

/-- Method `McpHandler.executeToolCall`: answers `__list_tools__` internally,
throws the structured not-found error when the name resolves to no map
entry, and otherwise invokes the resolved tool's handler on the
arguments. -/
def executeToolCall (m : ToolMap) (toolName : String) (args : String) : ExecResult :=
  if toolName = "__list_tools__" then .listed
  else
    match mapGet m toolName with
    | none => .notFound (toolNotFoundMessage m toolName)
    | some t => .ran t.code args

/-! ## The HTTP front door (proxy http-server) -/

/-- Just enough of a JavaScript value to express the validator's
`typeof` and truthiness tests. -/
inductive JVal where
  | jstr (s : String)
  | jnum (n : Int)
  | jbool (b : Bool)
  | jnull
  | jundef
  | jobj
  | jarr
deriving DecidableEq, Repr

/-- JavaScript truthiness. -/
def JVal.truthy : JVal → Bool
  | .jstr s => s ≠ ""
  | .jnum n => n ≠ 0
  | .jbool b => b
  | .jnull => false
  | .jundef => false
  | .jobj => true
  | .jarr => true

/-- JavaScript `typeof` (note `typeof null === 'object'`). -/
def JVal.typeofStr : JVal → String
  | .jstr _ => "string"
  | .jnum _ => "number"
  | .jbool _ => "boolean"
  | .jnull => "object"
  | .jundef => "undefined"
  | .jobj => "object"
  | .jarr => "object"

/-- The parsed request body as the validator sees it: the body value
itself, its `name` property and its `arguments` property (both `jundef`
when the body is not an object or the property is absent). -/
structure ToolBody where
  self : JVal
  name : JVal
  args : JVal
deriving DecidableEq, Repr

/-- The `name` string actually passed to the tool-call handler. -/
def ToolBody.nameString (b : ToolBody) : String :=
  match b.name with
  | .jstr s => s
  | _ => ""

/-- Result shape of `validateToolRequest`. -/
structure Validation where
  valid : Bool
  message : String
deriving DecidableEq, Repr

/-- Function `validateToolRequest`: the body must be a truthy object, `name` a
truthy string, and `arguments`, when truthy, an object. -/
def validateToolRequest (b : ToolBody) : Validation :=
  if !b.self.truthy || b.self.typeofStr ≠ "object" then
    { valid := false, message := "Request body must be a JSON object" }
  else if !b.name.truthy || b.name.typeofStr ≠ "string" then
    { valid := false, message := "Tool name is required and must be a string" }
  else if b.args.truthy && b.args.typeofStr ≠ "object" then
    { valid := false, message := "Tool arguments must be an object if provided" }
  else { valid := true, message := "Valid request" }

/-- The HTTP responses `handleToolRequest` can write. -/
inductive ToolHttpResponse where
  | badRequest (message : String)
  | okResult (tool : String) (result : String)
  | failure (error : String) (message : String)
deriving DecidableEq, Repr

/-- The status code written for each response shape: 400 for a failed
validation, 200 for `{success: true, tool, result}`, 500 for
`{success: false, error, message}`. -/
def ToolHttpResponse.status : ToolHttpResponse → Nat
  | .badRequest _ => 400
  | .okResult _ _ => 200
  | .failure _ _ => 500

/-- Function `handleToolRequest` after body parsing, with the tool-call handler's
behaviour supplied as a function from the tool name to a result or a
thrown error message.  The boolean records whether `handleToolCall` was
invoked at all. -/
def handleToolRequest (b : ToolBody) (handler : String → Except String String) :
    ToolHttpResponse × Bool :=
  let v := validateToolRequest b
  if !v.valid then (.badRequest v.message, false)
  else
    match handler b.nameString with
    | .ok r => (.okResult b.nameString r, true)
    | .error e => (.failure "Tool Execution Error" e, true)

/-- Constant `PROXY_CONFIG.HTTP_PORT`. -/
def HTTP_PORT : Nat := 9008

/-- Constant `PROXY_CONFIG.MCP_PORT`. -/
def MCP_PORT : Nat := 9009

/-- Function `handleHealthCheck`: always writes status 200 with the health object
whose keys, in literal order, are `status`, `timestamp`, `uptime`,
`version` and `ports`; the call-time values (timestamp, process uptime,
package version) are parameters. -/
def handleHealthCheck (timestamp : String) (uptime : Nat) (version : String) :
    Nat × List (String × String) :=
  (200,
    [("status", "healthy"),
     ("timestamp", timestamp),
     ("uptime", toString uptime),
     ("version", version),
     ("ports", "http " ++ toString HTTP_PORT ++ " mcp " ++ toString MCP_PORT)])

/-! ## Port-availability polling in createWebSocketServer (src/ws/index.js) -/

/-- The error thrown when the port never frees up. -/
def portBusyMessage (port maxAttempts : Nat) : String :=
  "Port " ++ toString port ++ " is still in use after " ++
    toString (maxAttempts * 100) ++ "ms. Unable to start server."

/-- The `while (await isPortInUse(port))` loop of `createWebSocketServer`
with the successive `isPortInUse` results supplied as an oracle indexed
by poll number.  `attempts` is the loop's counter; `idx` indexes the next
poll.  On success it returns `(attempts, idx)`: the number of 100 ms
waits performed and the index of the poll that found the port free.  The
loop throws once the counter exceeds `maxAttempts` (50 in the source,
after `killProcessOnPort` and a fixed 500 ms pause). -/
def portWaitLoop (inUse : Nat → Bool) (port maxAttempts attempts idx : Nat) :
    Except String (Nat × Nat) :=
  if inUse idx then
    if attempts + 1 > maxAttempts then .error (portBusyMessage port maxAttempts)
    else portWaitLoop inUse port maxAttempts (attempts + 1) (idx + 1)
  else .ok (attempts, idx)
termination_by maxAttempts + 1 - attempts
decreasing_by
  simp only [not_lt] at *
  omega

/-- The wait phase of `createWebSocketServer port`: 50 retries at most. -/
def createWebSocketServerWait (inUse : Nat → Bool) (port : Nat) :
    Except String (Nat × Nat) :=
  portWaitLoop inUse port 50 0 0

/-! ## Helper lemmas: the correlator's per-call event handlers -/

/-- A message of a non-`messageResponse` type is ignored by every call. -/
lemma wsStep_message_type_ne (c : CallState) (m : Envelope)
    (h : m.type ≠ MESSAGE_RESPONSE_TYPE) : wsStep c (.message m) = c := by
  simp [wsStep, h]

/-- A response whose `requestId` differs from a call's id leaves that
call untouched. -/
lemma wsStep_message_id_ne (c : CallState) (m : Envelope)
    (h : m.requestId ≠ c.id) : wsStep c (.message m) = c := by
  simp only [wsStep]
  split
  · split
    · rfl
    · simp [h]
  · rfl

/-- A matching response settles an attached, unsettled call: rejected
with the error message when `error` is truthy, else resolved with
`result`; the call's listeners come off and its timer is cleared. -/
lemma wsStep_message_match (c : CallState) (m : Envelope)
    (hAtt : c.msgAttached = true) (hId : m.requestId = c.id)
    (hTy : m.type = MESSAGE_RESPONSE_TYPE) (hPend : c.settled = none) :
    (wsStep c (.message m)).settled =
      some (if errTruthy m.error then Settled.rejected (m.error.getD "")
            else Settled.resolved m.result) ∧
    (wsStep c (.message m)).msgAttached = false ∧
    (wsStep c (.message m)).timerActive = false ∧
    (wsStep c (.message m)).cleanupRuns = c.cleanupRuns + 1 := by
  simp [wsStep, hAtt, hId, hTy, CallState.settle, CallState.cleanup, hPend]

/-- Once a call's listeners are detached and its timer cleared, no event
can change it. -/
lemma wsStep_detached_fix (c : CallState) (e : WsEvent)
    (h1 : c.msgAttached = false) (h2 : c.errAttached = false)
    (h3 : c.closeAttached = false) (h4 : c.timerActive = false) :
    wsStep c e = c := by
  cases e <;> simp [wsStep, h1, h2, h3, h4]

/-- Running `runEvents` fixes a fully detached call. -/
lemma runEvents_detached_fix (c : CallState) (evs : List WsEvent)
    (h1 : c.msgAttached = false) (h2 : c.errAttached = false)
    (h3 : c.closeAttached = false) (h4 : c.timerActive = false) :
    runEvents c evs = c := by
  induction evs with
  | nil => rfl
  | cons e evs ih =>
      simp only [runEvents, List.foldl_cons]
      rw [wsStep_detached_fix c e h1 h2 h3 h4]
      exact ih

/-- A call just set up by `sendSocketMessage` on an open socket: all
listeners attached, no cleanup, no settlement yet. -/
def FreshCall (c : CallState) : Prop :=
  c.msgAttached = true ∧ c.errAttached = true ∧ c.closeAttached = true ∧
  c.cleanupRuns = 0 ∧ c.settleCount = 0 ∧ c.settled = none

/-- A call after one exit path fired: everything detached, timer clear,
`cleanup` ran exactly once, `resolve`/`reject` ran at most once. -/
def DoneCall (c : CallState) : Prop :=
  c.msgAttached = false ∧ c.errAttached = false ∧ c.closeAttached = false ∧
  c.timerActive = false ∧ c.cleanupRuns = 1 ∧ c.settleCount ≤ 1

/-- Every event either leaves a fresh call fresh or completes it. -/
lemma wsStep_inv (c : CallState) (e : WsEvent)
    (h : FreshCall c ∨ DoneCall c) :
    FreshCall (wsStep c e) ∨ DoneCall (wsStep c e) := by
  rcases h with h | h
  · obtain ⟨h1, h2, h3, h4, h5, h6⟩ := h
    cases e with
    | message m =>
        by_cases hTy : m.type = MESSAGE_RESPONSE_TYPE
        · by_cases hId : m.requestId = c.id
          · right
            simp [wsStep, h1, hTy, hId, CallState.settle, CallState.cleanup,
                  h4, h5, DoneCall]
          · left
            rw [wsStep_message_id_ne c m hId]
            exact ⟨h1, h2, h3, h4, h5, h6⟩
        · left
          rw [wsStep_message_type_ne c m hTy]
          exact ⟨h1, h2, h3, h4, h5, h6⟩
    | timerFire =>
        by_cases hT : c.timerActive
        · right
          simp [wsStep, hT, CallState.settle, CallState.cleanup, h4, h5, DoneCall]
        · left
          simp only [wsStep, hT, if_false, Bool.false_eq_true]
          exact ⟨h1, h2, h3, h4, h5, h6⟩
    | socketError =>
        right
        simp [wsStep, h2, CallState.settle, CallState.cleanup, h4, h5, DoneCall]
    | socketClose =>
        right
        simp [wsStep, h3, CallState.cleanup, h4, h5, DoneCall]
  · right
    obtain ⟨h1, h2, h3, h4, h5, h6⟩ := h
    rw [wsStep_detached_fix c e h1 h2 h3 h4]
    exact ⟨h1, h2, h3, h4, h5, h6⟩

/-- The invariant holds along any trace. -/
lemma runEvents_inv (c : CallState) (evs : List WsEvent)
    (h : FreshCall c ∨ DoneCall c) :
    FreshCall (runEvents c evs) ∨ DoneCall (runEvents c evs) := by
  induction evs generalizing c with
  | nil => exact h
  | cons e evs ih =>
      simp only [runEvents, List.foldl_cons]
      exact ih (wsStep c e) (wsStep_inv c e h)

/-- Starting `startCall` on an open socket yields a fresh call and one send. -/
lemma startCall_open (id : String) (t : Nat) :
    FreshCall (startCall id t true).1 ∧ (startCall id t true).2 = 1 := by
  simp [startCall, FreshCall]

/-- Mapping a function that fixes every element of a list is the
identity. -/
lemma map_fix_id {α : Type} (l : List α) (f : α → α)
    (h : ∀ x ∈ l, f x = x) : l.map f = l := by
  induction l with
  | nil => rfl
  | cons x xs ih =>
      simp only [List.map_cons]
      rw [h x (List.mem_cons_self x xs), ih (fun y hy => h y (List.mem_cons_of_mem x hy))]

/-! ## C1 — response correlation never crosses calls -/

/-- C1.  Each inbound envelope of type `messageResponse` settles only the
pending call whose correlation id equals the envelope's
`payload.requestId` (resolving with `payload.result`, or rejecting with
the `payload.error` message when that field is truthy); it leaves every
call with a different id — and hence every other concurrent in-flight
call — completely unchanged, and inbound messages of any other type, or
whose `requestId` matches no pending call, change nothing. -/
theorem correlator_routes_by_requestId (cs : List CallState) (m : Envelope) :
    (m.type ≠ MESSAGE_RESPONSE_TYPE → dispatchMessage m cs = cs) ∧
    ((∀ c ∈ cs, c.id ≠ m.requestId) → dispatchMessage m cs = cs) ∧
    (∀ c ∈ cs, c.id ≠ m.requestId → wsStep c (.message m) = c) ∧
    (∀ c ∈ cs, c.id = m.requestId → c.msgAttached = true → c.settled = none →
      m.type = MESSAGE_RESPONSE_TYPE →
      (wsStep c (.message m)).settled =
        some (if errTruthy m.error then Settled.rejected (m.error.getD "")
              else Settled.resolved m.result)) := by
  refine ⟨?_, ?_, ?_, ?_⟩
  · intro hTy
    simp only [dispatchMessage]
    apply map_fix_id
    intro c _
    exact wsStep_message_type_ne c m hTy
  · intro hAll
    simp only [dispatchMessage]
    apply map_fix_id
    intro c hc
    exact wsStep_message_id_ne c m (fun h => hAll c hc h.symm)
  · intro c _ hne
    exact wsStep_message_id_ne c m (fun h => hne h.symm)
  · intro c _ hid hatt hpend hty
    exact (wsStep_message_match c m hatt hid.symm hty hpend).1

/-- Concrete instance of C1: two in-flight calls `a` and `b`; a
`messageResponse` for `b` resolves `b` with its result and leaves `a`
untouched. -/
theorem correlator_routes_by_requestId_check :
    (wsStep (startCall "a" 30000 true).1
        (.message ⟨"messageResponse", "b", some "ok", none⟩) =
      (startCall "a" 30000 true).1) ∧
    (wsStep (startCall "b" 30000 true).1
        (.message ⟨"messageResponse", "b", some "ok", none⟩)).settled =
      some (.resolved (some "ok")) := by
  have h := correlator_routes_by_requestId
    [(startCall "a" 30000 true).1, (startCall "b" 30000 true).1]
    ⟨"messageResponse", "b", some "ok", none⟩
  constructor
  · exact h.2.2.1 (startCall "a" 30000 true).1 (by simp) (by decide)
  · have := h.2.2.2 (startCall "b" 30000 true).1 (by simp) (by decide)
      (by decide) (by decide) (by decide)
    simpa [errTruthy] using this

/-! ## C2 — timeout rejection and exactly-once cleanup -/

/-- C2.  For a call sent on an open socket with a nonzero timeout budget
`t` (default 30000 ms): if no matching response arrives and the timer
fires, the call rejects with the timeout error and `cleanup` runs — the
listeners are detached and the timer is cleared; any later event,
including a late-arriving response for the same id, leaves the settled
call bit-for-bit unchanged; along every possible event trace `cleanup`
runs at most once and the promise is settled at most once; and each of
the four exit paths (matching response, timer, socket error, socket
close) runs `cleanup` exactly once when it fires first. -/
theorem timeout_cleanup_exactly_once (id : String) (t : Nat) (ht : 0 < t) :
    (wsStep (startCall id t true).1 .timerFire).settled =
        some (.rejected (timeoutMessage t)) ∧
    (wsStep (startCall id t true).1 .timerFire).cleanupRuns = 1 ∧
    (wsStep (startCall id t true).1 .timerFire).timerActive = false ∧
    (∀ rest, runEvents (wsStep (startCall id t true).1 .timerFire) rest =
        wsStep (startCall id t true).1 .timerFire) ∧
    (∀ evs, (runEvents (startCall id t true).1 evs).cleanupRuns ≤ 1 ∧
            (runEvents (startCall id t true).1 evs).settleCount ≤ 1) ∧
    (∀ m : Envelope, m.type = MESSAGE_RESPONSE_TYPE → m.requestId = id →
        (wsStep (startCall id t true).1 (.message m)).cleanupRuns = 1) ∧
    (wsStep (startCall id t true).1 .socketError).cleanupRuns = 1 ∧
    (wsStep (startCall id t true).1 .socketClose).cleanupRuns = 1 := by
  have htne : t ≠ 0 := Nat.pos_iff_ne_zero.mp ht
  have hTimer : (startCall id t true).1.timerActive = true := by
    simp [startCall, htne]
  refine ⟨?_, ?_, ?_, ?_, ?_, ?_, ?_, ?_⟩
  · simp [wsStep, hTimer, startCall, CallState.cleanup, CallState.settle, htne]
  · simp [wsStep, hTimer, startCall, CallState.cleanup, CallState.settle, htne]
  · simp [wsStep, hTimer, startCall, CallState.cleanup, CallState.settle, htne]
  · intro rest
    apply runEvents_detached_fix <;>
      simp [wsStep, hTimer, startCall, CallState.cleanup, CallState.settle, htne]
  · intro evs
    have hInv := runEvents_inv (startCall id t true).1 evs
      (Or.inl (startCall_open id t).1)
    rcases hInv with h | h
    · exact ⟨by rw [h.2.2.2.1]; exact Nat.zero_le 1,
             by rw [h.2.2.2.2.1]; exact Nat.zero_le 1⟩
    · exact ⟨Nat.le_of_eq h.2.2.2.2.1, h.2.2.2.2.2⟩
  · intro m hTy hId
    have hAtt : (startCall id t true).1.msgAttached = true := by simp [startCall]
    have hIdc : m.requestId = (startCall id t true).1.id := by
      simp [startCall, hId]
    have hPend : (startCall id t true).1.settled = none := by simp [startCall]
    have := (wsStep_message_match (startCall id t true).1 m hAtt hIdc hTy hPend).2.2.2
    rw [this]
    simp [startCall]
  · simp [wsStep, startCall, CallState.cleanup, CallState.settle]
  · simp [wsStep, startCall, CallState.cleanup]

/-- Concrete instance of C2 at the default 30000 ms budget: the timer
fires on an outstanding call for id `c1`; the call is rejected with the
timeout message, cleanup ran once, and a late response for `c1` changes
nothing. -/
theorem timeout_cleanup_exactly_once_check :
    0 < 30000 ∧
    (wsStep (startCall "c1" 30000 true).1 .timerFire).settled =
      some (.rejected (timeoutMessage 30000)) ∧
    (wsStep (startCall "c1" 30000 true).1 .timerFire).cleanupRuns = 1 ∧
    runEvents (wsStep (startCall "c1" 30000 true).1 .timerFire)
        [.message ⟨"messageResponse", "c1", some "late", none⟩] =
      wsStep (startCall "c1" 30000 true).1 .timerFire := by
  have h := timeout_cleanup_exactly_once "c1" 30000 (by decide)
  exact ⟨by decide, h.1, h.2.1,
    h.2.2.2.1 [.message ⟨"messageResponse", "c1", some "late", none⟩]⟩

/-! ## C3 — fail fast when not connected, with no write -/

/-- C3.  A call issued while the Context holds no socket handle rejects
immediately with the user-actionable not-connected message and performs
no `ws.send`; a call issued while the handle's `readyState` is not OPEN
is rejected with the transport message `"WebSocket is not open"`, also
without any `ws.send`. -/
theorem not_connected_rejects_without_send (c : Context) (id : String) (t : Nat) :
    (c.hasWs = false →
      contextSend c id t = (.immediateReject noConnectionMessage, 0)) ∧
    (∀ h : WSHandle, c.ws? = some h → h.readyState ≠ WS_OPEN →
      (contextSend c id t).2 = 0 ∧
      ∃ s : CallState, (contextSend c id t).1 = .started s ∧
        s.settled = some (.rejected notOpenMessage)) := by
  constructor
  · intro hNo
    cases hws : c.ws? with
    | none => simp [contextSend, hws]
    | some h =>
        exfalso
        simp [Context.hasWs, hws] at hNo
  · intro h hws hne
    simp only [contextSend, hws]
    refine ⟨by simp [startCall, hne], ?_⟩
    refine ⟨(startCall id t (decide (h.readyState = WS_OPEN))).1, rfl, ?_⟩
    simp [startCall, hne, CallState.settle, CallState.cleanup]

/-- Concrete instance of C3: an empty Context rejects with the
not-connected message and zero sends; a Context with a CLOSED
(readyState 3) handle performs zero sends and its call is born rejected
with the not-open transport message. -/
theorem not_connected_rejects_without_send_check :
    contextSend ⟨none⟩ "x" 30000 = (.immediateReject noConnectionMessage, 0) ∧
    (contextSend ⟨some ⟨3⟩⟩ "x" 30000).2 = 0 ∧
    ∃ s : CallState, (contextSend ⟨some ⟨3⟩⟩ "x" 30000).1 = .started s ∧
      s.settled = some (.rejected notOpenMessage) := by
  refine ⟨(not_connected_rejects_without_send ⟨none⟩ "x" 30000).1 (by decide), ?_, ?_⟩
  · exact ((not_connected_rejects_without_send ⟨some ⟨3⟩⟩ "x" 30000).2 ⟨3⟩ rfl
      (by decide)).1
  · exact ((not_connected_rejects_without_send ⟨some ⟨3⟩⟩ "x" 30000).2 ⟨3⟩ rfl
      (by decide)).2

/-! ## C4 — socket close abandons pending calls (code bug) -/

/-- C4 (code bug).  The `close` handler registered by `sendSocketMessage`
is the bare `cleanup` function: when the current socket is closed — as
the connection manager does to the old handle on replacement — a pending
call's listeners are detached and its timer is cleared, but the promise
is never rejected; `settled` stays `none` after the close event and
after every possible subsequent event, so the caller awaits forever
instead of failing with a transport error as the spec requires. -/
theorem socket_close_abandons_pending_call :
    (wsStep (startCall "a" 30000 true).1 .socketClose).settled = none ∧
    (wsStep (startCall "a" 30000 true).1 .socketClose).cleanupRuns = 1 ∧
    (wsStep (startCall "a" 30000 true).1 .socketClose).timerActive = false ∧
    ∀ evs, (runEvents (wsStep (startCall "a" 30000 true).1 .socketClose) evs).settled
      = none := by
  refine ⟨by decide, by decide, by decide, ?_⟩
  intro evs
  rw [runEvents_detached_fix _ evs (by decide) (by decide) (by decide) (by decide)]
  decide

/-! ## C5 — retry budgets of the lifecycle state machine -/

/-- After `k ≤ maxRetries` failed creation attempts the machine is back
in `CREATING_SERVER` with `retryCount = k`. -/
lemma failRound_iterate (mr k : Nat) (hk : k ≤ mr) :
    SM.failRound^[k] ((SM.init mr).runStep .ok) =
      { state := .CREATING_SERVER, retryCount := k,
        maxRetries := mr, isShuttingDown := false } := by
  induction k with
  | zero =>
      simp [SM.init, SM.runStep, SM.transition]
  | succ n ih =>
      rw [Function.iterate_succ_apply', ih (Nat.le_of_succ_le hk)]
      have hn : n < mr := hk
      simp [SM.failRound, SM.runStep, SM.handleError, SM.transition, hn]

/-- C5.  Started in `INITIALIZING`, the machine reaches `CONNECTED` after
one successful `CREATING_SERVER` → `CONNECTING` pass; when every server
creation attempt fails, after `k ≤ maxRetries` failures it is still in
`CREATING_SERVER` (with `retryCount = k`), and the `maxRetries + 1`-st
failure is the one that lands in `FAILED` — each failure with
`retryCount < maxRetries` schedules `RETRYING_SERVER_CREATION`, the
failure at `retryCount = maxRetries` goes to `FAILED`; and a failure in
`CONNECTING` with the budget exhausted escalates to `RESTARTING` and is
never sent to `FAILED`. -/
theorem lifecycle_retry_budget (mr : Nat) :
    ((SM.init mr).runTrace [.ok, .ok, .ok]).state = .CONNECTED ∧
    (∀ k, k ≤ mr →
      (SM.failRound^[k] ((SM.init mr).runStep .ok)).state = .CREATING_SERVER ∧
      (SM.failRound^[k] ((SM.init mr).runStep .ok)).retryCount = k) ∧
    (SM.failRound^[mr + 1] ((SM.init mr).runStep .ok)).state = .FAILED ∧
    (∀ m : SM, m.state = .CREATING_SERVER → m.isShuttingDown = false →
      (m.retryCount < m.maxRetries →
        (m.runStep .fail).state = .RETRYING_SERVER_CREATION ∧
        (m.runStep .fail).retryCount = m.retryCount + 1) ∧
      (m.retryCount = m.maxRetries → (m.runStep .fail).state = .FAILED)) ∧
    (∀ m : SM, m.state = .CONNECTING → m.isShuttingDown = false →
      (m.maxRetries ≤ m.retryCount → (m.runStep .fail).state = .RESTARTING) ∧
      (m.runStep .fail).state ≠ .FAILED) := by
  refine ⟨?_, ?_, ?_, ?_, ?_⟩
  · simp [SM.init, SM.runTrace, SM.runStep, SM.transition]
  · intro k hk
    rw [failRound_iterate mr k hk]
    exact ⟨rfl, rfl⟩
  · rw [Function.iterate_succ_apply', failRound_iterate mr mr (Nat.le_refl mr)]
    simp [SM.failRound, SM.runStep, SM.handleError, SM.transition]
  · intro m hState hShut
    constructor
    · intro hLt
      simp [SM.runStep, hState, SM.handleError, hShut, hLt, SM.transition]
    · intro hEq
      simp [SM.runStep, hState, SM.handleError, hShut, hEq, SM.transition]
  · intro m hState hShut
    constructor
    · intro hGe
      have : ¬ m.retryCount < m.maxRetries := Nat.not_lt.mpr hGe
      simp [SM.runStep, hState, SM.handleError, hShut, this, SM.transition]
    · by_cases hLt : m.retryCount < m.maxRetries <;>
        simp [SM.runStep, hState, SM.handleError, hShut, hLt, SM.transition]

/-- Concrete instance of C5 at the default budget `maxRetries = 3`: the
success pass connects; after 3 failures the machine still retries from
`CREATING_SERVER`; the 4th failure fails permanently; and a `CONNECTING`
failure with the budget exhausted restarts rather than fails. -/
theorem lifecycle_retry_budget_check :
    ((SM.init 3).runTrace [.ok, .ok, .ok]).state = .CONNECTED ∧
    (SM.failRound^[3] ((SM.init 3).runStep .ok)).state = .CREATING_SERVER ∧
    (SM.failRound^[4] ((SM.init 3).runStep .ok)).state = .FAILED ∧
    (SM.runStep ⟨.CONNECTING, 3, 3, false⟩ .fail).state = .RESTARTING := by
  have h := lifecycle_retry_budget 3
  exact ⟨h.1, (h.2.1 3 (by decide)).1, h.2.2.1,
    (h.2.2.2.2 ⟨.CONNECTING, 3, 3, false⟩ rfl rfl).1 (by decide)⟩

/-! ## C6 — errors while connected reset the counter and reconnect -/

/-- C6.  An error handled while the machine is `CONNECTED` (and not
shutting down) moves it to `RECONNECTING` with the retry counter reset
to 0; the next loop iteration rebuilds via `CREATING_SERVER`, still with
a zero counter; and any transition into `CONNECTED` itself resets the
counter to 0. -/
theorem connected_error_resets_and_reconnects (m : SM)
    (hState : m.state = .CONNECTED) (hShut : m.isShuttingDown = false) :
    (m.handleError).state = .RECONNECTING ∧
    (m.handleError).retryCount = 0 ∧
    (∀ o : Outcome, ((m.handleError).runStep o).state = .CREATING_SERVER ∧
      ((m.handleError).runStep o).retryCount = 0) ∧
    (∀ m2 : SM, (m2.transition .CONNECTED).retryCount = 0) := by
  refine ⟨?_, ?_, ?_, ?_⟩
  · simp [SM.handleError, hShut, hState, SM.transition]
  · simp [SM.handleError, hShut, hState, SM.transition]
  · intro o
    constructor <;>
      simp [SM.handleError, hShut, hState, SM.transition, SM.runStep]
  · intro m2
    simp [SM.transition]

/-- Concrete instance of C6: a connected machine with a nonzero counter,
hit by an error, reconnects with the counter reset and rebuilds. -/
theorem connected_error_resets_and_reconnects_check :
    (SM.handleError ⟨.CONNECTED, 2, 3, false⟩).state = .RECONNECTING ∧
    (SM.handleError ⟨.CONNECTED, 2, 3, false⟩).retryCount = 0 ∧
    ((SM.handleError ⟨.CONNECTED, 2, 3, false⟩).runStep .ok).state =
      .CREATING_SERVER := by
  have h := connected_error_resets_and_reconnects ⟨.CONNECTED, 2, 3, false⟩ rfl rfl
  exact ⟨h.1, h.2.1, (h.2.2.1 .ok).1⟩

/-! ## C7 — tool map lemmas -/

/-- Setting a key makes it resolve to the new value. -/
lemma mapGet_set_self (m : ToolMap) (k : String) (v : Tool) :
    mapGet (mapSet m k v) k = some v := by
  induction m with
  | nil => simp [mapSet, mapGet, List.find?]
  | cons p rest ih =>
      by_cases h : p.1 = k
      · simp [mapSet, h, mapGet, List.find?]
      · simp only [mapSet, h, if_false]
        simpa [mapGet, List.find?, h] using ih

/-- Setting a key leaves every other key's resolution unchanged. -/
lemma mapGet_set_ne (m : ToolMap) (k : String) (v : Tool) (k2 : String)
    (hne : k2 ≠ k) : mapGet (mapSet m k v) k2 = mapGet m k2 := by
  have hkk2 : ¬ (k = k2) := fun hh => hne hh.symm
  induction m with
  | nil => simp [mapSet, mapGet, List.find?, hkk2]
  | cons p rest ih =>
      by_cases h : p.1 = k
      · have hp : ¬ p.1 = k2 := by rw [h]; exact hkk2
        simp [mapSet, h, mapGet, List.find?, hkk2, hp]
      · by_cases h2 : p.1 = k2
        · rw [show mapSet (p :: rest) k v = p :: mapSet rest k v from by
            simp [mapSet, h]]
          simp [mapGet, List.find?, h2]
        · simp only [mapSet, h, if_false]
          simpa [mapGet, List.find?, h2] using ih

/-- The keys present after a `set` are the old keys plus the set key. -/
lemma mapHas_set (m : ToolMap) (k : String) (v : Tool) (k2 : String) :
    mapHas (mapSet m k v) k2 = (mapHas m k2 || decide (k2 = k)) := by
  induction m with
  | nil => simp [mapSet, mapHas, eq_comm]
  | cons p rest ih =>
      by_cases h : p.1 = k
      · simp only [mapSet, h, if_true, mapHas, List.any_cons]
        have hcomm : decide (k2 = k) = decide (k = k2) := by
          simp [eq_comm]
        rw [hcomm]
        cases hd : decide (k = k2) <;> simp
      · simp only [mapSet, h, if_false, mapHas, List.any_cons]
        have ih2 : (mapSet rest k v).any (fun p => p.1 = k2) =
            (rest.any (fun p => p.1 = k2) || decide (k2 = k)) := ih
        rw [ih2, Bool.or_assoc]

/-- A resolvable key is present. -/
lemma mapHas_of_get_some (m : ToolMap) (k : String) (v : Tool)
    (h : mapGet m k = some v) : mapHas m k = true := by
  simp only [mapGet, Option.map_eq_some'] at h
  obtain ⟨p, hp, _⟩ := h
  have hmem := List.mem_of_find?_eq_some hp
  have hpk := List.find?_some hp
  simp only [mapHas, List.any_eq_true]
  exact ⟨p, hmem, hpk⟩

/-- An alias-installation step (`if (!map.has(a)) map.set(a, t)`) never
disturbs an existing binding. -/
lemma aliasStep_preserves (mi : ToolMap) (a : String) (t : Tool)
    (k : String) (v : Tool) (h : mapGet mi k = some v) :
    mapGet (if mapHas mi a then mi else mapSet mi a t) k = some v := by
  by_cases hhas : mapHas mi a
  · simpa [hhas] using h
  · by_cases hak : a = k
    · exact absurd (hak ▸ mapHas_of_get_some mi k v h) hhas
    · simp only [hhas, if_false, Bool.false_eq_true]
      rw [mapGet_set_ne mi a t k (fun hh => hak hh.symm)]
      exact h

/-- After `registerTool`, the explicit schema name resolves to the tool
itself — an explicit registration is never shadowed by an alias. -/
lemma registerTool_get_name (m : ToolMap) (t : Tool) :
    mapGet (registerTool m t) t.name = some t := by
  have h1 : mapGet (mapSet m t.name t) t.name = some t := mapGet_set_self m t.name t
  by_cases hb : browserPrefixed t.name
  · simp only [registerTool, hb, if_true]
    exact aliasStep_preserves _ _ _ _ _ (aliasStep_preserves _ _ _ _ _
      (aliasStep_preserves _ _ _ _ _ h1))
  · simpa [registerTool, hb] using h1

/-- Registering a tool with a different schema name never disturbs an
existing binding. -/
lemma registerTool_get_preserved (m : ToolMap) (t : Tool) (k : String)
    (v : Tool) (hne : t.name ≠ k) (hb : mapGet m k = some v) :
    mapGet (registerTool m t) k = some v := by
  have h1 : mapGet (mapSet m t.name t) k = some v := by
    rw [mapGet_set_ne m t.name t k (fun hh => hne hh.symm)]
    exact hb
  by_cases hpre : browserPrefixed t.name
  · simp only [registerTool, hpre, if_true]
    exact aliasStep_preserves _ _ _ _ _ (aliasStep_preserves _ _ _ _ _
      (aliasStep_preserves _ _ _ _ _ h1))
  · simpa [registerTool, hpre] using h1

/-- Keys present after `registerTool` were present before, or are the
tool's schema name or one of its alias spellings. -/
lemma registerTool_has_sub (m : ToolMap) (t : Tool) (k : String)
    (h : mapHas (registerTool m t) k = true) :
    mapHas m k = true ∨ k = t.name ∨ k ∈ aliasesOf t := by
  by_cases hpre : browserPrefixed t.name
  · simp only [registerTool, hpre, if_true] at h
    have expand : ∀ (mi : ToolMap) (a : String),
        mapHas (if mapHas mi a then mi else mapSet mi a t) k = true →
        mapHas mi k = true ∨ k = a := by
      intro mi a hh
      by_cases hcase : mapHas mi a
      · rw [if_pos hcase] at hh
        exact Or.inl hh
      · rw [if_neg hcase, mapHas_set] at hh
        simpa using hh
    rcases expand _ _ h with h3 | h3
    · rcases expand _ _ h3 with h2 | h2
      · rcases expand _ _ h2 with h1 | h1
        · rw [mapHas_set] at h1
          rcases (by simpa using h1 : mapHas m k = true ∨ k = t.name) with hm | hm
          · exact Or.inl hm
          · exact Or.inr (Or.inl hm)
        · exact Or.inr (Or.inr (by simp [aliasesOf, hpre, h1]))
      · exact Or.inr (Or.inr (by simp [aliasesOf, hpre, h2]))
    · exact Or.inr (Or.inr (by simp [aliasesOf, hpre, h3]))
  · simp only [registerTool, hpre, if_false, Bool.false_eq_true, mapHas_set] at h
    rcases (by simpa using h : mapHas m k = true ∨ k = t.name) with hm | hm
    · exact Or.inl hm
    · exact Or.inr (Or.inl hm)

/-- Function `registerTool` installs each alias spelling that is free at its turn,
binding it to the tool itself (given the three spellings are pairwise
distinct and the alias is not the tool's own name). -/
lemma registerTool_get_alias (m : ToolMap) (t : Tool) (a : String)
    (ha : a ∈ aliasesOf t) (hnot : mapHas m a = false) (hna : a ≠ t.name)
    (hdist : (aliasesOf t).Nodup) :
    mapGet (registerTool m t) a = some t := by
  by_cases hpre : browserPrefixed t.name
  case neg => simp [aliasesOf, hpre] at ha
  simp only [aliasesOf, hpre, if_true] at ha hdist
  have h1not : mapHas (mapSet m t.name t) a = false := by
    rw [mapHas_set, hnot]
    simp only [Bool.false_or, decide_eq_false_iff_not]
    exact hna
  have keepStep : ∀ (mi : ToolMap) (b : String), b ≠ a → mapHas mi a = false →
      mapHas (if mapHas mi b then mi else mapSet mi b t) a = false := by
    intro mi b hb hmi
    by_cases hc : mapHas mi b
    · simpa [hc] using hmi
    · rw [if_neg (by simp [hc]), mapHas_set, hmi]
      simp only [Bool.false_or, decide_eq_false_iff_not]
      exact fun hh => hb hh.symm
  simp only [registerTool, hpre, if_true]
  simp only [List.mem_cons, List.not_mem_nil, or_false] at ha
  simp only [List.nodup_cons, List.mem_cons, List.not_mem_nil, or_false,
    List.nodup_nil, and_true, not_or] at hdist
  obtain ⟨⟨hd12, hd13⟩, hd23, -⟩ := hdist
  have insertStep : ∀ (mi : ToolMap) (b : String), mapHas mi b = false →
      mapGet (if mapHas mi b then mi else mapSet mi b t) b = some t := by
    intro mi b hmi
    rw [if_neg (by simp [hmi])]
    exact mapGet_set_self mi b t
  rcases ha with ha | ha | ha
  · subst ha
    apply aliasStep_preserves
    apply aliasStep_preserves
    exact insertStep _ _ h1not
  · subst ha
    have hstep := keepStep (mapSet m t.name t) (stripBrowser t.name) hd12 h1not
    apply aliasStep_preserves
    exact insertStep _ _ hstep
  · subst ha
    have h2 := keepStep (mapSet m t.name t) (stripBrowser t.name) hd13 h1not
    have h3 := keepStep _ ("mcp_browser" ++ t.name) hd23 h2
    exact insertStep _ _ h3

/-- A fold of registrations over tools whose names all differ from `k`
preserves `k`'s binding. -/
lemma foldl_get_preserved (l : List Tool) (m0 : ToolMap) (k : String)
    (v : Tool) (hb : mapGet m0 k = some v) (h : ∀ t2 ∈ l, t2.name ≠ k) :
    mapGet (l.foldl registerTool m0) k = some v := by
  induction l generalizing m0 with
  | nil => exact hb
  | cons t2 rest ih =>
      simp only [List.foldl_cons]
      exact ih (registerTool m0 t2)
        (registerTool_get_preserved m0 t2 k v (h t2 (List.mem_cons_self t2 rest)) hb)
        (fun t3 h3 => h t3 (List.mem_cons_of_mem t2 h3))

/-- Every key of a built map is some processed tool's schema name or one
of its alias spellings. -/
lemma foldl_has_sub (l : List Tool) (m0 : ToolMap) (k : String)
    (h : mapHas (l.foldl registerTool m0) k = true) :
    mapHas m0 k = true ∨ ∃ t2 ∈ l, k = t2.name ∨ k ∈ aliasesOf t2 := by
  induction l generalizing m0 with
  | nil => exact Or.inl h
  | cons t2 rest ih =>
      simp only [List.foldl_cons] at h
      rcases ih (registerTool m0 t2) h with h2 | h2
      · rcases registerTool_has_sub m0 t2 k h2 with h3 | h3
        · exact Or.inl h3
        · exact Or.inr ⟨t2, List.mem_cons_self t2 rest, h3⟩
      · obtain ⟨t3, h3, h4⟩ := h2
        exact Or.inr ⟨t3, List.mem_cons_of_mem t2 h3, h4⟩

/-- C7.  In the tool map built by the `McpHandler` constructor, for a
registered tool `t` whose name carries the `browser_` prefix and any of
its three alias spellings `a` (the prefix-stripped name,
`mcp_browser<name>`, `mcp_browsermcp_<name>`) — provided explicit schema
names are distinct and `a` collides neither with any explicit
registration nor with another tool's aliases — both the full name and
the alias resolve to the very same tool, so `executeToolCall` on the
alias returns a result identical to the full name's; and executing any
name the map does not hold yields the structured tool-not-found failure
whose message lists every currently known name, not a transport error. -/
theorem alias_resolution_matches_explicit
    (tools : List Tool) (t : Tool) (a : String) (args : String)
    (hmem : t ∈ tools)
    (hnodup : (tools.map Tool.name).Nodup)
    (ha : a ∈ aliasesOf t)
    (hana : a ≠ t.name)
    (haldn : (aliasesOf t).Nodup)
    (hnoexp : ∀ t2 ∈ tools, t2.name ≠ a)
    (hnoal : ∀ t2 ∈ tools, t2 ≠ t → a ∉ aliasesOf t2)
    (hnl : t.name ≠ "__list_tools__") (hal : a ≠ "__list_tools__") :
    mapGet (buildToolMap tools) t.name = some t ∧
    mapGet (buildToolMap tools) a = some t ∧
    executeToolCall (buildToolMap tools) a args =
      executeToolCall (buildToolMap tools) t.name args ∧
    executeToolCall (buildToolMap tools) t.name args = .ran t.code args ∧
    (∀ nm, nm ≠ "__list_tools__" → mapGet (buildToolMap tools) nm = none →
      executeToolCall (buildToolMap tools) nm args =
        .notFound (toolNotFoundMessage (buildToolMap tools) nm)) := by
  obtain ⟨pre, post, rfl⟩ := List.append_of_mem hmem
  have hfold : buildToolMap (pre ++ t :: post)
      = post.foldl registerTool (registerTool (pre.foldl registerTool []) t) := by
    simp [buildToolMap, List.foldl_append]
  have hpreNames : ∀ t2 ∈ pre, t2.name ≠ t.name := by
    intro t2 h2 heq
    have hmap := hnodup
    rw [List.map_append] at hmap
    have hdisj := List.disjoint_of_nodup_append hmap
    have hmem2 : t2.name ∈ ((t :: post).map Tool.name) := by
      rw [List.map_cons, heq]
      exact List.mem_cons_self _ _
    exact hdisj (List.mem_map_of_mem Tool.name h2) hmem2
  have hnamesPost : ∀ t2 ∈ post, t2.name ≠ t.name := by
    intro t2 h2 heq
    have hr : (t.name :: post.map Tool.name).Nodup := by
      have hmap := hnodup
      rw [List.map_append, List.map_cons] at hmap
      exact hmap.of_append_right
    exact (List.nodup_cons.mp hr).1 (heq ▸ List.mem_map_of_mem Tool.name h2)
  have hA : mapGet (buildToolMap (pre ++ t :: post)) t.name = some t := by
    rw [hfold]
    exact foldl_get_preserved post _ _ t (registerTool_get_name _ t) hnamesPost
  have hpreNoA : mapHas (pre.foldl registerTool []) a = false := by
    cases hcase : mapHas (pre.foldl registerTool []) a with
    | false => rfl
    | true =>
        exfalso
        rcases foldl_has_sub pre [] a hcase with h0 | ⟨t2, h2, h3⟩
        · simp [mapHas] at h0
        · rcases h3 with h3 | h3
          · exact hnoexp t2 (List.mem_append_left _ h2) h3.symm
          · have ht2 : t2 ≠ t := by
              intro heq
              exact hpreNames t2 h2 (by rw [heq])
            exact hnoal t2 (List.mem_append_left _ h2) ht2 h3
  have hB : mapGet (buildToolMap (pre ++ t :: post)) a = some t := by
    rw [hfold]
    exact foldl_get_preserved post _ _ t
      (registerTool_get_alias _ t a ha hpreNoA hana haldn)
      (fun t2 h2 => hnoexp t2
        (List.mem_append_right _ (List.mem_cons_of_mem t h2)))
  refine ⟨hA, hB, ?_, ?_, ?_⟩
  · simp [executeToolCall, hal, hnl, hA, hB]
  · simp [executeToolCall, hnl, hA]
  · intro nm h1 h2
    simp [executeToolCall, h1, h2]

/-- Concrete instance of C7: with tools `browser_click` and
`browser_wait` registered, the stripped alias `click` resolves to the
same tool as `browser_click` and executes identically, and an
unregistered name produces the structured not-found result listing every
known key. -/
theorem alias_resolution_matches_explicit_check :
    mapGet (buildToolMap [⟨"browser_click", 1⟩, ⟨"browser_wait", 2⟩]) "click" =
      some ⟨"browser_click", 1⟩ ∧
    executeToolCall (buildToolMap [⟨"browser_click", 1⟩, ⟨"browser_wait", 2⟩])
        "click" "argsA" =
      executeToolCall (buildToolMap [⟨"browser_click", 1⟩, ⟨"browser_wait", 2⟩])
        "browser_click" "argsA" ∧
    executeToolCall (buildToolMap [⟨"browser_click", 1⟩, ⟨"browser_wait", 2⟩])
        "nope" "argsA" =
      .notFound (toolNotFoundMessage
        (buildToolMap [⟨"browser_click", 1⟩, ⟨"browser_wait", 2⟩]) "nope") := by
  have h := alias_resolution_matches_explicit
    [⟨"browser_click", 1⟩, ⟨"browser_wait", 2⟩] ⟨"browser_click", 1⟩
    "click" "argsA"
    (by decide) (by decide) (by decide) (by decide) (by decide)
    (by decide) (by decide) (by decide) (by decide)
  exact ⟨h.2.1, h.2.2.1, h.2.2.2.2 "nope" (by decide) (by decide)⟩

/-! ## C8 — POST /tool status contract -/

/-- C8.  For every `POST /tool` body: a failed validation — exactly when
the body is not a truthy object, or its `name` is not a truthy string,
or its `arguments` is truthy yet not of object type — yields HTTP 400
and the tool-call handler is never invoked; a valid body whose handler
succeeds with `r` yields HTTP 200 with `{success: true, tool, result: r}`;
a valid body whose handler throws `e` yields HTTP 500 with
`{success: false, error: 'Tool Execution Error', message: e}`. -/
theorem tool_endpoint_status_contract (b : ToolBody)
    (handler : String → Except String String) :
    ((validateToolRequest b).valid = false →
      (handleToolRequest b handler).2 = false ∧
      (handleToolRequest b handler).1.status = 400 ∧
      (handleToolRequest b handler).1 =
        .badRequest (validateToolRequest b).message) ∧
    ((validateToolRequest b).valid = true ↔
      (b.self.truthy = true ∧ b.self.typeofStr = "object" ∧
       b.name.truthy = true ∧ b.name.typeofStr = "string" ∧
       (b.args.truthy = false ∨ b.args.typeofStr = "object"))) ∧
    ((validateToolRequest b).valid = true → ∀ r, handler b.nameString = .ok r →
      (handleToolRequest b handler).1.status = 200 ∧
      handleToolRequest b handler = (.okResult b.nameString r, true)) ∧
    ((validateToolRequest b).valid = true → ∀ e, handler b.nameString = .error e →
      (handleToolRequest b handler).1.status = 500 ∧
      handleToolRequest b handler = (.failure "Tool Execution Error" e, true)) := by
  refine ⟨?_, ?_, ?_, ?_⟩
  · intro hv
    simp [handleToolRequest, hv, ToolHttpResponse.status]
  · constructor
    · intro hv
      by_cases h1 : b.self.truthy = true ∧ b.self.typeofStr = "object"
      · by_cases h2 : b.name.truthy = true ∧ b.name.typeofStr = "string"
        · by_cases h3 : b.args.truthy = true ∧ b.args.typeofStr ≠ "object"
          · exfalso
            simp [validateToolRequest, h1.1, h1.2, h2.1, h2.2, h3.1, h3.2] at hv
          · refine ⟨h1.1, h1.2, h2.1, h2.2, ?_⟩
            by_cases hat : b.args.truthy = true
            · right
              by_cases hao : b.args.typeofStr = "object"
              · exact hao
              · exact absurd ⟨hat, hao⟩ h3
            · exact Or.inl (by simpa using hat)
        · exfalso
          rcases Decidable.not_and_iff_or_not.mp h2 with h2a | h2b
          · simp only [validateToolRequest] at hv
            rw [if_neg ?_] at hv
            · rw [if_pos (by simp [by simpa using h2a])] at hv
              simp at hv
            · simp [h1.1, h1.2]
          · simp only [validateToolRequest] at hv
            rw [if_neg (by simp [h1.1, h1.2])] at hv
            rw [if_pos (by simp [h2b])] at hv
            simp at hv
      · exfalso
        rcases Decidable.not_and_iff_or_not.mp h1 with h1a | h1b
        · simp only [validateToolRequest] at hv
          rw [if_pos (by simp [by simpa using h1a])] at hv
          simp at hv
        · simp only [validateToolRequest] at hv
          rw [if_pos (by simp [h1b])] at hv
          simp at hv
    · rintro ⟨h1, h2, h3, h4, h5⟩
      simp only [validateToolRequest]
      rw [if_neg (by simp [h1, h2]), if_neg (by simp [h3, h4]), if_neg ?_]
      · rcases h5 with h5 | h5
        · simp [h5]
        · simp [h5]
  · intro hv r hr
    simp [handleToolRequest, hv, hr, ToolHttpResponse.status]
  · intro hv e he
    simp [handleToolRequest, hv, he, ToolHttpResponse.status]

/-- Concrete instance of C8: a body with a non-string `name` gets 400
with the handler never invoked; a well-formed call on a succeeding
handler gets 200; one on a throwing handler gets 500. -/
theorem tool_endpoint_status_contract_check :
    (handleToolRequest ⟨.jobj, .jnum 5, .jundef⟩ (fun _ => .ok "r")).2 = false ∧
    (handleToolRequest ⟨.jobj, .jnum 5, .jundef⟩ (fun _ => .ok "r")).1.status = 400 ∧
    handleToolRequest ⟨.jobj, .jstr "browser_wait", .jobj⟩ (fun _ => .ok "r") =
      (.okResult "browser_wait" "r", true) ∧
    handleToolRequest ⟨.jobj, .jstr "browser_wait", .jobj⟩ (fun _ => .error "boom") =
      (.failure "Tool Execution Error" "boom", true) := by
  have h400 := (tool_endpoint_status_contract ⟨.jobj, .jnum 5, .jundef⟩
    (fun _ => .ok "r")).1 (by decide)
  have h200 := ((tool_endpoint_status_contract ⟨.jobj, .jstr "browser_wait", .jobj⟩
    (fun _ => .ok "r")).2.2.1 (by decide) "r" rfl).2
  have h500 := ((tool_endpoint_status_contract ⟨.jobj, .jstr "browser_wait", .jobj⟩
    (fun _ => .error "boom")).2.2.2 (by decide) "boom" rfl).2
  exact ⟨h400.1, h400.2.1, h200, h500⟩

/-! ## C9 — GET /health: always 200, but the field is `uptime` -/

/-- C9 counterexample.  The health handler's JSON body carries no
`uptimeSeconds` key: its keys are `status`, `timestamp`, `uptime`,
`version` and `ports`. -/
theorem health_uptimeSeconds_absent :
    (handleHealthCheck "2024-01-01T00:00:00Z" 5 "1.0.0").1 = 200 ∧
    ¬ ("uptimeSeconds" ∈
      (handleHealthCheck "2024-01-01T00:00:00Z" 5 "1.0.0").2.map
        (fun p => p.1)) := by
  constructor
  · rfl
  · decide

/-- C9 (amended).  Every `GET /health` request, whatever the current
timestamp, process uptime and version — in particular regardless of
whether a browser socket is connected, which the handler never
consults — is answered with HTTP 200 and a JSON body whose keys are
exactly `status`, `timestamp`, `uptime`, `version` and `ports` (the
uptime-in-seconds field is spelled `uptime`, not `uptimeSeconds`). -/
theorem health_ok_with_uptime_field (timestamp : String) (uptime : Nat)
    (version : String) :
    (handleHealthCheck timestamp uptime version).1 = 200 ∧
    (handleHealthCheck timestamp uptime version).2.map (fun p => p.1) =
      ["status", "timestamp", "uptime", "version", "ports"] := by
  exact ⟨rfl, rfl⟩

/-! ## C10 — the port-availability wait is bounded -/

/-- If every poll up to the budget finds the port in use, the loop throws
the port-naming error. -/
lemma portWaitLoop_all_busy (inUse : Nat → Bool) (port : Nat) :
    ∀ maxA attempts idx, (∀ j, j ≤ idx + (maxA - attempts) → idx ≤ j →
      inUse j = true) → attempts ≤ maxA →
    portWaitLoop inUse port maxA attempts idx =
      .error (portBusyMessage port maxA) := by
  intro maxA
  have main : ∀ n attempts idx, maxA - attempts = n →
      (∀ j, j ≤ idx + (maxA - attempts) → idx ≤ j → inUse j = true) →
      attempts ≤ maxA →
      portWaitLoop inUse port maxA attempts idx =
        .error (portBusyMessage port maxA) := by
    intro n
    induction n with
    | zero =>
        intro attempts idx hn hbusy hle
        have hin : inUse idx = true := hbusy idx (by omega) (Nat.le_refl idx)
        rw [portWaitLoop, if_pos (by simp [hin])]
        rw [if_pos (by omega)]
    | succ k ih =>
        intro attempts idx hn hbusy hle
        have hin : inUse idx = true := hbusy idx (by omega) (Nat.le_refl idx)
        rw [portWaitLoop, if_pos (by simp [hin])]
        rw [if_neg (by omega)]
        apply ih (attempts + 1) (idx + 1) (by omega) ?_ (by omega)
        intro j hj1 hj2
        exact hbusy j (by omega) (by omega)
  intro attempts idx hbusy hle
  exact main (maxA - attempts) attempts idx rfl hbusy hle

/-- Whenever the loop exits successfully it has found the port free,
after as many waits as polls-that-found-it-busy, all within budget. -/
lemma portWaitLoop_ok (inUse : Nat → Bool) (port : Nat) :
    ∀ maxA attempts idx a i, attempts ≤ maxA →
      portWaitLoop inUse port maxA attempts idx = .ok (a, i) →
      inUse i = false ∧ idx ≤ i ∧ a - attempts = i - idx ∧ attempts ≤ a ∧
      a ≤ maxA ∧ (∀ j, idx ≤ j → j < i → inUse j = true) := by
  intro maxA
  have main : ∀ n attempts idx a i, maxA + 1 - attempts = n → attempts ≤ maxA →
      portWaitLoop inUse port maxA attempts idx = .ok (a, i) →
      inUse i = false ∧ idx ≤ i ∧ a - attempts = i - idx ∧ attempts ≤ a ∧
      a ≤ maxA ∧ (∀ j, idx ≤ j → j < i → inUse j = true) := by
    intro n
    induction n with
    | zero =>
        intro attempts idx a i hn hatt hok
        omega
    | succ k ih =>
        intro attempts idx a i hn hatt hok
        rw [portWaitLoop] at hok
        by_cases hin : inUse idx = true
        · rw [if_pos (by simp [hin])] at hok
          by_cases hgt : attempts + 1 > maxA
          · rw [if_pos hgt] at hok
            exact absurd hok (by simp)
          · rw [if_neg hgt] at hok
            obtain ⟨h1, h2, h3, h4, h5, h6⟩ :=
              ih (attempts + 1) (idx + 1) a i (by omega) (by omega) hok
            refine ⟨h1, by omega, by omega, by omega, h5, ?_⟩
            intro j hj1 hj2
            by_cases hj : j = idx
            · rw [hj]; exact hin
            · exact h6 j (by omega) hj2
        · rw [if_neg (by simp [hin])] at hok
          simp only [Except.ok.injEq, Prod.mk.injEq] at hok
          obtain ⟨ha, hi⟩ := hok
          subst ha; subst hi
          refine ⟨by simpa using hin, Nat.le_refl _, by omega, Nat.le_refl _,
            hatt, ?_⟩
          intro j hj1 hj2
          omega
  intro attempts idx a i hatt hok
  exact main (maxA + 1 - attempts) attempts idx a i rfl hatt hok

/-- The loop cannot return any error other than the port-busy message. -/
lemma portWaitLoop_error_msg (inUse : Nat → Bool) (port : Nat) :
    ∀ maxA attempts idx msg,
      portWaitLoop inUse port maxA attempts idx = .error msg →
      msg = portBusyMessage port maxA := by
  intro maxA
  have main : ∀ n attempts idx msg, maxA + 1 - attempts = n →
      portWaitLoop inUse port maxA attempts idx = .error msg →
      msg = portBusyMessage port maxA := by
    intro n
    induction n with
    | zero =>
        intro attempts idx msg hn herr
        rw [portWaitLoop] at herr
        by_cases hin : inUse idx = true
        · rw [if_pos (by simp [hin])] at herr
          rw [if_pos (by omega)] at herr
          simpa using herr.symm
        · rw [if_neg (by simp [hin])] at herr
          exact absurd herr (by simp)
    | succ k ih =>
        intro attempts idx msg hn herr
        rw [portWaitLoop] at herr
        by_cases hin : inUse idx = true
        · rw [if_pos (by simp [hin])] at herr
          by_cases hgt : attempts + 1 > maxA
          · rw [if_pos hgt] at herr
            simpa using herr.symm
          · rw [if_neg hgt] at herr
            exact ih (attempts + 1) (idx + 1) msg (by omega) herr
        · rw [if_neg (by simp [hin])] at herr
          exact absurd herr (by simp)
  intro attempts idx msg herr
  exact main (maxA + 1 - attempts) attempts idx msg rfl herr

/-- If the polls from `idx` up to just before `i` all find the port
busy and poll `i` finds it free, and the remaining budget suffices, the
loop exits successfully at poll `i`. -/
lemma portWaitLoop_exits_ok (inUse : Nat → Bool) (port : Nat) :
    ∀ maxA attempts idx i, idx ≤ i →
      (∀ j, idx ≤ j → j < i → inUse j = true) → inUse i = false →
      i - idx ≤ maxA - attempts → attempts ≤ maxA →
      portWaitLoop inUse port maxA attempts idx =
        .ok (attempts + (i - idx), i) := by
  intro maxA
  have main : ∀ n attempts idx i, i - idx = n → idx ≤ i →
      (∀ j, idx ≤ j → j < i → inUse j = true) → inUse i = false →
      i - idx ≤ maxA - attempts → attempts ≤ maxA →
      portWaitLoop inUse port maxA attempts idx =
        .ok (attempts + (i - idx), i) := by
    intro n
    induction n with
    | zero =>
        intro attempts idx i hn hle _ hfree _ _
        have hidx : idx = i := by omega
        subst hidx
        rw [portWaitLoop, if_neg (by simp [hfree])]
        simp [hn]
    | succ k ih =>
        intro attempts idx i hn hle hbusy hfree hbud hatt
        have hin : inUse idx = true := hbusy idx (Nat.le_refl idx) (by omega)
        rw [portWaitLoop, if_pos (by simp [hin])]
        rw [if_neg (by omega)]
        have hrec := ih (attempts + 1) (idx + 1) i (by omega) (by omega)
          (fun j hj1 hj2 => hbusy j (by omega) hj2) hfree (by omega) (by omega)
        have harith : attempts + (i - idx) = attempts + 1 + (i - (idx + 1)) := by
          omega
        rw [harith]
        exact hrec
  intro attempts idx i hle hbusy hfree hbud hatt
  exact main (i - idx) attempts idx i rfl hle hbusy hfree hbud hatt

/-- C10.  The wait-for-port phase of `createWebSocketServer` always
terminates within its budget: it throws the error naming the port
(after 50 delayed retries, hence the message's 5000 ms) exactly when
every one of the first 51 availability polls finds the port still in
use; otherwise it returns after `i ≤ 50` busy polls — and as many
100 ms delays — having found the port free on poll `i`, so server
creation never blocks indefinitely on a busy port. -/
theorem port_wait_loop_bounded (inUse : Nat → Bool) (port : Nat) :
    (createWebSocketServerWait inUse port = .error (portBusyMessage port 50) ↔
      ∀ i, i ≤ 50 → inUse i = true) ∧
    (∀ a i, createWebSocketServerWait inUse port = .ok (a, i) →
      a = i ∧ i ≤ 50 ∧ inUse i = false ∧ ∀ j, j < i → inUse j = true) := by
  constructor
  · constructor
    · intro herr i hi
      by_contra hcon
      have hfree : inUse i = false := by
        cases hval : inUse i with
        | true => exact absurd hval hcon
        | false => rfl
      have hex : ∃ n, inUse n = false := ⟨i, hfree⟩
      have hmfree : inUse (Nat.find hex) = false := Nat.find_spec hex
      have hmle : Nat.find hex ≤ 50 := Nat.le_trans (Nat.find_min' hex hfree) hi
      have hok := portWaitLoop_exits_ok inUse port 50 0 0 (Nat.find hex)
        (Nat.zero_le _)
        (fun j _ hj => by
          have := Nat.find_min hex hj
          cases hval : inUse j with
          | true => rfl
          | false => exact absurd hval this)
        hmfree (by omega) (by omega)
      rw [createWebSocketServerWait] at herr
      rw [hok] at herr
      exact absurd herr (by simp)
    · intro hall
      exact portWaitLoop_all_busy inUse port 50 0 0
        (fun j hj1 _ => hall j (by omega)) (by omega)
  · intro a i hok
    obtain ⟨h1, h2, h3, h4, h5, h6⟩ :=
      portWaitLoop_ok inUse port 50 0 0 a i (by omega) hok
    exact ⟨by omega, by omega, h1, fun j hj => h6 j (by omega) hj⟩

/-- Concrete instance of C10: a port that frees up at the fourth poll
makes the wait succeed after 3 busy polls and 3 delays, within budget;
a port that never frees makes it throw the error naming the port. -/
theorem port_wait_loop_bounded_check :
    createWebSocketServerWait (fun i => i < 3) 9009 = .ok (3, 3) ∧
    (3 : Nat) ≤ 50 ∧ (fun i : Nat => decide (i < 3)) 3 = false ∧
    createWebSocketServerWait (fun _ => true) 9009 =
      .error (portBusyMessage 9009 50) := by
  have hok : createWebSocketServerWait (fun i => i < 3) 9009 = .ok (3, 3) := by
    have h := portWaitLoop_exits_ok (fun i => decide (i < 3)) 9009 50 0 0 3
      (by omega) (fun j hj1 hj2 => by simpa using hj2) (by simp)
      (by omega) (by omega)
    simpa [createWebSocketServerWait] using h
  have h := (port_wait_loop_bounded (fun i => i < 3) 9009).2 3 3 hok
  exact ⟨hok, h.2.1, h.2.2.1,
    (port_wait_loop_bounded (fun _ => true) 9009).1.mpr (fun i _ => rfl)⟩

end BrowserMcp
